import Mathlib

/-!
# Verification of the fiwami detection-and-backup engine

Shallow embedding of the core logic of `src/ui/orca_slicer_config_manager.py`
(directory scanning in `auto_detect_configs`, snapshot capture in
`_backup_files`, snapshot listing and restore in `restore_files`, registry
mutation in `add_file` / `remove_file`, and the watchdog callback `on_event`
inside `ensure_watcher_for_file`), together with theorems settling the
specification claims about this code.

Conventions of the embedding:
* Python strings are Lean `String`s; `str.lower()` is `strLower`
  (the inputs of interest are ASCII, where the two agree).
* Paths are plain strings joined with `"/"` (`os.sep` on the POSIX platform
  the code runs on); search roots are written without a trailing separator
  and directory/file names contain no separator, so
  `root.count(os.sep) - base_dir.count(os.sep)` is the component depth.
* The filesystem seen by a scan is a finite in-memory tree (`Dir`); the
  filesystem under the backup root is a finite association list of snapshot
  directories; "the file exists on disk" is membership in an explicit list.
* Fallible operations return a result constructor per code path instead of
  raising; an uncaught Python exception is modelled by its own constructor.
-/

namespace Fiwami

/-! ## String utilities (models of the Python primitives used by the code) -/

/-- Model of `pre.isPrefix of s` at the character-list level:
`listStartsWith s pre` is true when `pre` is an initial segment of `s`.
Models Python `s.startswith(pre)`. -/
def listStartsWith : List Char → List Char → Bool
  | _, [] => true
  | [], _ :: _ => false
  | a :: as, b :: bs => a == b && listStartsWith as bs

/-- Model of the Python substring test `needle in hay` on character lists. -/
def listHasInfix : List Char → List Char → Bool
  | [], needle => needle.isEmpty
  | a :: t, needle => listStartsWith (a :: t) needle || listHasInfix t needle

/-- Python `needle in hay` for strings. -/
def strContains (hay needle : String) : Bool :=
  listHasInfix hay.data needle.data

/-- Python `s.lower()` (the inputs of interest are ASCII, where lowering is
`Char.toLower` on each character). -/
def strLower (s : String) : String :=
  String.mk (s.data.map Char.toLower)

/-- Python `s.startswith(pre)`. -/
def strStartsWith (s pre : String) : Bool :=
  listStartsWith s.data pre.data

/-- Glob matching of `Path(filename).match(pattern)` for a bare filename and
a single-component pattern: `*` matches any sequence of characters, `?` any
single character, every other character matches itself.  (The bracket
character classes of `fnmatch` are not used by any pattern of this program's
configuration and are not modelled.)  `globMatch pattern name`. -/
def globMatch : List Char → List Char → Bool
  | [], s => s.isEmpty
  | '*' :: ps, s => s.tails.any (fun t => globMatch ps t)
  | '?' :: _, [] => false
  | '?' :: ps, _ :: t => globMatch ps t
  | _ :: _, [] => false
  | p :: ps, c :: t => p == c && globMatch ps t

/-- `os.path.basename` for a path whose separator is `/`: everything after
the last separator. -/
def basename (p : String) : String :=
  String.mk ((p.data.reverse.takeWhile (fun c => c != '/')).reverse)

/-- Number of occurrences of the path separator, `path.count(os.sep)`. -/
def sepCount (s : String) : Nat := s.data.count '/'

/-! ## Detection: data model -/

/-- The detection settings consumed by `auto_detect_configs`
(`self.detection_config`, already parsed from the UI fields:
`exclude_patterns` entries are lower-cased by the caller). -/
structure DetectionConfig where
  app_name : String
  subdirectories : List String
  file_patterns : List String
  exclude_patterns : List String

/-- A directory of the scanned filesystem: its name, its subdirectories and
the names of the plain files it holds directly. -/
inductive Dir where
  | mk (name : String) (subdirs : List Dir) (files : List String)

/-- The name of a directory. -/
def Dir.name : Dir → String
  | .mk n _ _ => n

/-- The subdirectories of a directory. -/
def Dir.subdirs : Dir → List Dir
  | .mk _ s _ => s

/-- The plain files directly inside a directory. -/
def Dir.files : Dir → List String
  | .mk _ _ f => f

/-- Line 198-200: a subdirectory is dropped from `dirs` when its lower-cased
name contains any exclude pattern. -/
def excludedName (cfg : DetectionConfig) (nm : String) : Bool :=
  cfg.exclude_patterns.any (fun ex => strContains (strLower nm) ex)

/-- Lines 202-206: the current directory's lower-cased path contains
`os.path.join(app_name, subdir).lower()` for some configured subdirectory. -/
def matchedDir (cfg : DetectionConfig) (path : String) : Bool :=
  cfg.subdirectories.any (fun sub =>
    strContains (strLower path) (strLower (cfg.app_name ++ "/" ++ sub)))

/-- Line 213-220: the files of the current directory that match some file
pattern and are not already managed, as full paths. -/
def matchingFilesHere (cfg : DetectionConfig) (tracked : List String)
    (path : String) (files : List String) : List String :=
  (files.filter (fun f =>
      cfg.file_patterns.any (fun pat => globMatch pat.data f.data)
        && !tracked.contains (path ++ "/" ++ f))).map (fun f => path ++ "/" ++ f)

mutual

/-- The `os.walk(base_dir, topdown=True)` loop body of `auto_detect_configs`
(lines 196-224) at one directory node `d` whose full path is `path`,
searching from root `base`: prune excluded subdirectory names from descent;
if the path does not contain an `app_name/subdir` pattern, stop descending
when `root.count(os.sep) - base_dir.count(os.sep) > 3` and collect nothing
here; otherwise collect the matching files of this directory and stop
descending when the same depth exceeds 5. -/
def walkDir (cfg : DetectionConfig) (tracked : List String)
    (base path : String) : Dir → List String
  | Dir.mk _ subdirs files =>
      if !matchedDir cfg path then
        if sepCount path - sepCount base > 3 then []
        else walkList cfg tracked base path subdirs
      else
        let here := matchingFilesHere cfg tracked path files
        if sepCount path - sepCount base > 5 then here
        else here ++ walkList cfg tracked base path subdirs
termination_by structural d => d

/-- Descent into the (pruned) subdirectory list of a node: a subdirectory
whose lower-cased name contains an exclude pattern was removed from `dirs`
by line 198-200, which is modelled by skipping its whole subtree. -/
def walkList (cfg : DetectionConfig) (tracked : List String)
    (base path : String) : List Dir → List String
  | [] => []
  | c :: cs =>
      (if excludedName cfg c.name then []
       else walkDir cfg tracked base (path ++ "/" ++ c.name) c)
        ++ walkList cfg tracked base path cs
termination_by structural l => l

end

/-- `auto_detect_configs` (lines 176-236) stripped of its UI parts: given the
parsed detection config, the currently managed paths and the in-memory trees
rooted at each search dir, return `none` on the empty-app-name early exit
(line 183-185) and otherwise the collected `found_files`. -/
def auto_detect_configs (cfg : DetectionConfig) (tracked : List String)
    (roots : List (String × Dir)) : Option (List String) :=
  if cfg.app_name == "" then none
  else some (roots.flatMap (fun r => walkDir cfg tracked r.1 r.1 r.2))

/-! ## SnapshotStore: `_backup_files`, `restore_files` and listing -/

/-- A wall-clock instant as consumed by
`datetime.datetime.now().strftime("%Y-%m-%d_%H-%M-%S")` (second resolution). -/
structure Timestamp where
  year : Nat
  month : Nat
  day : Nat
  hour : Nat
  minute : Nat
  second : Nat
deriving DecidableEq

/-- The zero padding of the two-digit `strftime` fields (`%m`, `%d`, `%H`,
`%M`, `%S`). -/
def pad2 (n : Nat) : String :=
  if n < 10 then "0" ++ toString n else toString n

/-- `now.strftime("%Y-%m-%d_%H-%M-%S")` (line 407). -/
def formatTimestamp (t : Timestamp) : String :=
  toString t.year ++ "-" ++ pad2 t.month ++ "-" ++ pad2 t.day ++ "_"
    ++ pad2 t.hour ++ "-" ++ pad2 t.minute ++ "-" ++ pad2 t.second

/-- Outcome of one `_backup_files` call, one constructor per exit path of
lines 397-419: the empty-input early return (line 398-400), the
backup-root-unset return (lines 401-406, reached when the user declines to
set a backup folder or the chooser leaves it empty — the `BackupRootUnset`
outcome of the spec), and the successful completion reporting the snapshot
directory name and the copied count (line 418). -/
inductive BackupResult where
  | noFiles
  | backupRootUnset
  | done (target : String) (copiedCount : Nat)
deriving DecidableEq

/-- The state under the backup root: each snapshot directory's name paired
with the filenames it holds, in creation order. -/
abbrev BackupFS := List (String × List String)

/-- `os.makedirs(target, exist_ok=True)` (line 410): create the snapshot
directory when absent, keep it untouched when present. -/
def ensureSnapshotDir (fs : BackupFS) (name : String) : BackupFS :=
  if fs.any (fun e => e.1 == name) then fs
  else fs ++ [(name, [])]

/-- `copy_file(path, tgtfile, overwrite=True)` into a snapshot directory
(line 416): with `overwrite=True` the copy replaces the content of an
existing member, so the name set gains `fname` when new and is otherwise
unchanged. -/
def copyIntoSnapshot (fs : BackupFS) (dir fname : String) : BackupFS :=
  fs.map (fun e =>
    if e.1 == dir then (e.1, if e.2.contains fname then e.2 else e.2 ++ [fname])
    else e)

/-- One iteration of the copy loop of `_backup_files` (lines 412-417):
a source that exists on disk is copied into the snapshot under its basename
and counted, a missing source leaves both accumulators untouched. -/
def backupStep (onDisk : List String) (target : String)
    (acc : Nat × BackupFS) (path : String) : Nat × BackupFS :=
  if onDisk.contains path then
    (acc.1 + 1, copyIntoSnapshot acc.2 target (basename path))
  else acc

/-- `_backup_files` (lines 397-419): `backupDir` is `self.backup_dir` after
the user interaction of lines 401-406 (an empty string means the caller
declined to resolve it), `onDisk` lists the source paths for which
`os.path.exists` holds, `files` is the sequence to back up and `fs` the
current state under the backup root.  Only existing sources are copied
(line 413) and only they are counted (line 417); the copy places
`basename path` into the timestamped snapshot directory. -/
def backup_files (backupDir : String) (now : Timestamp) (onDisk : List String)
    (files : List String) (fs : BackupFS) : BackupResult × BackupFS :=
  if files.isEmpty then (.noFiles, fs)
  else if backupDir == "" then (.backupRootUnset, fs)
  else
    let target := "ConfigBackup_" ++ formatTimestamp now
    let res := files.foldl (backupStep onDisk target)
      (0, ensureSnapshotDir fs target)
    (.done target res.1, res.2)

/-- Line 429 of `restore_files`: the snapshot candidates are exactly the
entries of the backup root whose name starts with `"ConfigBackup_"`,
in listing order. -/
def listBackups (entries : List String) : List String :=
  entries.filter (fun d => strStartsWith d "ConfigBackup_")

/-- Modelled from the spec: the snapshot naming convention
`ConfigBackup_<YYYY-MM-DD_HH-MM-SS>` of section 6 ("Snapshot directory
naming"), stated as a shape check — the fixed prefix followed by exactly
nineteen characters that are digits except for the dashes and the
underscore in the fixed places.  This definition follows the spec's words
(not the code) and exists to be compared with `listBackups`. -/
def followsSnapshotNaming (name : String) : Bool :=
  matchShape "DDDD-DD-DD_DD-DD-DD".data (name.data.drop 13)
    && strStartsWith name "ConfigBackup_"
where
  /-- `D` stands for a decimal digit, every other mask character for
  itself. -/
  matchShape : List Char → List Char → Bool
    | [], [] => true
    | 'D' :: ms, c :: cs => c.isDigit && matchShape ms cs
    | m :: ms, c :: cs => m == c && matchShape ms cs
    | _, _ => false

/-- The disk outside the backup root, as the contents of files by absolute
path (used to observe what a restore overwrites). -/
abbrev Disk := List (String × String)

/-- Read a file's content from the disk model. -/
def getContent (disk : Disk) (path : String) : Option String :=
  (disk.find? (fun e => e.1 == path)).map Prod.snd

/-- Overwriting copy onto the disk model (`copy_file(src, dst,
overwrite=True)`, line 461): replaces the content at `path`, creating the
entry when absent. -/
def setContent (disk : Disk) (path content : String) : Disk :=
  if disk.any (fun e => e.1 == path) then
    disk.map (fun e =>
      if e.1 == path then (e.1, content) else e)
  else disk ++ [(path, content)]

/-- Line 454: `name_to_id = {os.path.basename(path): file_id for file_id,
path in self.managed_files.items()}` followed by
`self.managed_files[name_to_id[fname]]` — for a snapshot filename the
destination is the path of the *last* managed entry whose basename equals
it (later dict-comprehension entries overwrite earlier ones), or nothing
when no managed path has that basename. -/
def lookupDest (managed : List (String × String)) (fname : String) :
    Option String :=
  ((managed.filter (fun e => basename e.2 == fname)).getLast?).map Prod.snd

/-- One iteration of the restore loop (lines 456-464): skip a snapshot
filename with no managed basename match; on a match attempt the copy,
counting it unless `copy_file` raised. -/
def restoreStep (managed : List (String × String)) (copyFails : String → Bool)
    (acc : Nat × Disk) (f : String × String) : Nat × Disk :=
  match lookupDest managed f.1 with
  | none => acc
  | some dest =>
      if copyFails f.1 then acc
      else (acc.1 + 1, setContent acc.2 dest f.2)

/-- The restore loop of `restore_files` (lines 454-465): for each file of
the snapshot listing, in order, look up the destination among the managed
files; skip the file when no destination matches; attempt the overwriting
copy otherwise, where `copyFails` says whether `copy_file` raises for this
filename (the `except` arm reports the failure and the loop continues);
count the successes.  `snap` pairs each snapshot filename with its content;
the result is the reported `restored` count and the disk after the copies. -/
def restore_files (snap : List (String × String))
    (managed : List (String × String)) (copyFails : String → Bool)
    (disk : Disk) : Nat × Disk :=
  snap.foldl (restoreStep managed copyFails) (0, disk)

/-! ## Registry: `add_file` and `remove_file` -/

/-- The registry state: `self.managed_files` as an association list from
file id to path (a Python dict in insertion order with unique keys), plus
`self.file_counter`. -/
structure Registry where
  managed_files : List (String × String)
  file_counter : Nat
deriving DecidableEq

/-- Outcome of one `add_file` call, one constructor per exit path of lines
356-369: the dialog returned no path (line 358-359), the path is already
managed and the "Duplicate File" warning is shown (lines 360-362 — the
`DuplicatePath` outcome of the spec), or the file was added under a fresh
id. -/
inductive AddOutcome where
  | cancelled
  | duplicatePath
  | added (id : String)
deriving DecidableEq

/-- `add_file` (lines 356-369) with the chosen dialog path as an argument:
an empty string models a cancelled dialog. -/
def add_file (reg : Registry) (filepath : String) : AddOutcome × Registry :=
  if filepath == "" then (.cancelled, reg)
  else if (reg.managed_files.map Prod.snd).contains filepath then
    (.duplicatePath, reg)
  else
    let fid := "file_" ++ toString reg.file_counter
    (.added fid,
      ⟨reg.managed_files ++ [(fid, filepath)], reg.file_counter + 1⟩)

/-- Outcome of one `remove_file` call, one constructor per exit path of
lines 371-381: no tree item focused (lines 373-375), the confirmation
dialog declined (line 377), the entry deleted, or — when the focused id is
absent from `managed_files` and the user confirms — the uncaught `KeyError`
raised by `del self.managed_files[selected_id]` at line 378 (an unhandled
exception, not a structured result). -/
inductive RemoveOutcome where
  | noSelection
  | cancelled
  | removed
  | keyError
deriving DecidableEq

/-- `remove_file` (lines 371-381) with the focused tree id and the dialog
answer as arguments: an empty id models an empty `focus()`. -/
def remove_file (reg : Registry) (selected_id : String) (confirm : Bool) :
    RemoveOutcome × Registry :=
  if selected_id == "" then (.noSelection, reg)
  else if !confirm then (.cancelled, reg)
  else if (reg.managed_files.map Prod.fst).contains selected_id then
    (.removed,
      ⟨reg.managed_files.eraseP (fun e => e.1 == selected_id),
        reg.file_counter⟩)
  else (.keyError, reg)

/-- Modelled from the spec: section 7 requires every recoverable Registry
failure to be "surfaced to the caller as a typed outcome, never as an
unstructured crash"; this predicate therefore holds exactly for the
outcomes that are structured results of `remove_file`, and not for the
uncaught `KeyError`. -/
def structuredRemoveOutcome : RemoveOutcome → Bool
  | .keyError => false
  | _ => true

/-! ## WatchRouter: the `on_event` callback -/

/-- The `on_event` callback installed by `ensure_watcher_for_file` (lines
473-479): when the auto-backup flag is disabled the event is dropped;
otherwise `backup_single(tracked_path)` is invoked for every managed path
equal to the event's source path.  The result lists the paths passed to
`backup_single`, in invocation order, so its length is the number of
capture calls triggered by the event. -/
def on_event (auto_backup_enabled : Bool) (managedPaths : List String)
    (src_path : String) : List String :=
  if !auto_backup_enabled then []
  else managedPaths.filter (fun tracked_path => src_path == tracked_path)

/-! ## Concrete fixtures used by the claim theorems -/

/-- The scan configuration of the spec's concrete detection scenarios:
`app_name="AppX"`, `subdirectories=["user"]`, `file_patterns=["*.json"]`,
and the program's default exclude patterns, already lower-cased. -/
def appxCfg : DetectionConfig :=
  { app_name := "AppX", subdirectories := ["user"],
    file_patterns := ["*.json"], exclude_patterns := ["cache", "temp", "log"] }

/-- A search tree with matching files at several depths below the root
`/r`: `orphan.json` at component depth 6 with no matched ancestor,
and inside the matched `AppX/user` directory `a3.json` (depth 3),
`sub/a4.json` (depth 4), `s3/s4/s5/a6.json` (depth 6),
`s3/s4/s5/s6/a7.json` (depth 7, its directory at depth 6) and
`s3/s4/s5/s6/s7/a8.json` (depth 8, its directory at depth 7). -/
def depthTree : Dir :=
  .mk "r"
    [ .mk "nm1" [ .mk "nm2" [ .mk "nm3" [ .mk "nm4"
        [ .mk "nm5" [] ["orphan.json"] ] [] ] [] ] [] ] [],
      .mk "AppX"
        [ .mk "user"
            [ .mk "sub" [] ["a4.json"],
              .mk "s3" [ .mk "s4" [ .mk "s5"
                [ .mk "s6" [ .mk "s7" [] ["a8.json"] ] ["a7.json"] ]
                ["a6.json"] ] [] ] [] ]
            ["a3.json"] ]
        [] ]
    []

/-- A matched `AppX/user` directory holding `good.json` directly and a
`cache` subdirectory holding `hidden.json`. -/
def cacheTree : Dir :=
  .mk "r"
    [ .mk "AppX"
        [ .mk "user"
            [ .mk "cache" [] ["hidden.json"] ]
            ["good.json"] ] [] ]
    []

/-- The spec's positive detection scenario: `AppX/user/settings.json`
nested two levels under the search root, an already-tracked sibling, a
non-matching extension, and unrelated sibling directories with files that
must not be picked up. -/
def scanTree : Dir :=
  .mk "cfgroot"
    [ .mk "AppX"
        [ .mk "user" [] ["settings.json", "tracked.json", "readme.txt"],
          .mk "data" [] ["d.json"] ] [],
      .mk "Other" [ .mk "user" [] ["other.json"] ] [] ]
    []

/-- A fixed wall-clock instant for the snapshot scenarios. -/
def ts1 : Timestamp := ⟨2024, 1, 1, 0, 0, 0⟩

/-- A registry fixture holding one managed file. -/
def reg1 : Registry := ⟨[("file_0", "/cfg/a.json")], 1⟩

/-! ## C4: capture with the backup root unset -/

/-- C4: `_backup_files` invoked on a non-empty file sequence while the
backup root is empty (the caller having declined to resolve it) exits
through the backup-root-unset path and leaves the state under the backup
root unchanged: no snapshot directory is created. -/
theorem C4_backup_root_unset (now : Timestamp) (onDisk : List String)
    (files : List String) (fs : BackupFS) (hne : files ≠ []) :
    backup_files "" now onDisk files fs = (.backupRootUnset, fs) := by
  cases files with
  | nil => exact absurd rfl hne
  | cons f fsl => simp [backup_files]

/-- C4 witness: the theorem applied to a concrete two-file capture with the
backup root unset. -/
theorem C4_backup_root_unset_witness :
    backup_files "" ts1 ["/s/a.json"] ["/s/a.json", "/s/b.json"] [] =
      (.backupRootUnset, []) :=
  C4_backup_root_unset ts1 ["/s/a.json"] ["/s/a.json", "/s/b.json"] []
    (by decide)

/-! ## C5: capture copies exactly the sources that exist -/

/-- The copied count of the capture loop: starting from any accumulator,
the loop adds one per file that exists on disk. -/
theorem backupStep_foldl_count (onDisk : List String) (target : String) :
    ∀ (files : List String) (n : Nat) (fs0 : BackupFS),
      (files.foldl (backupStep onDisk target) (n, fs0)).1 =
        n + (files.filter (fun p => onDisk.contains p)).length := by
  intro files
  induction files with
  | nil => intro n fs0; simp
  | cons f rest ih =>
      intro n fs0
      simp only [List.foldl_cons, backupStep, List.filter_cons]
      by_cases h : onDisk.contains f = true
      · rw [if_pos h, if_pos h, ih]
        simp only [List.length_cons]
        omega
      · rw [if_neg h, if_neg h, ih]

/-- C5: during a capture with a set backup root and a non-empty file
sequence, only the files that currently exist on disk are copied and
counted — the reported count is the number of existing sources — and
concretely, a capture of two files whose second source is missing still
creates the snapshot directory, copies exactly the first file, and
reports count 1. -/
theorem C5_missing_sources_skipped :
    (∀ (root : String) (now : Timestamp) (onDisk files : List String)
        (fs : BackupFS), root ≠ "" → files ≠ [] →
        (backup_files root now onDisk files fs).1 =
          .done ("ConfigBackup_" ++ formatTimestamp now)
            ((files.filter (fun p => onDisk.contains p)).length))
    ∧ backup_files "/bk" ts1 ["/s/a.json"] ["/s/a.json", "/s/b.json"] [] =
        (.done "ConfigBackup_2024-01-01_00-00-00" 1,
          [("ConfigBackup_2024-01-01_00-00-00", ["a.json"])]) := by
  constructor
  · intro root now onDisk files fs hroot hfiles
    have hroot' : (root == "") = false := by
      simp [hroot]
    have hfiles' : files.isEmpty = false := by
      cases files with
      | nil => exact absurd rfl hfiles
      | cons f fsl => rfl
    simp [backup_files, hroot', hfiles', backupStep_foldl_count]
  · decide

/-- C5 witness: the count characterization applied to a concrete capture
whose second source is missing. -/
theorem C5_missing_sources_skipped_witness :
    (backup_files "/bk" ts1 ["/s/a.json"]
        ["/s/a.json", "/s/b.json", "/s/c.json"] []).1 =
      .done "ConfigBackup_2024-01-01_00-00-00" 1 :=
  C5_missing_sources_skipped.1 "/bk" ts1 ["/s/a.json"]
    ["/s/a.json", "/s/b.json", "/s/c.json"] [] (by decide) (by decide)

/-! ## C10: the empty-input check precedes the backup-root check -/

/-- C10: `_backup_files` on an empty file sequence exits through the
no-files path whatever the backup root — even the unset one — so no
snapshot directory is created and the backup-root-unset outcome is not
reported: the empty-input check of line 398 runs before the backup-root
check of line 401. -/
theorem C10_empty_files_first (root : String) (now : Timestamp)
    (onDisk : List String) (fs : BackupFS) :
    backup_files root now onDisk [] fs = (.noFiles, fs)
      ∧ BackupResult.noFiles ≠ BackupResult.backupRootUnset := by
  constructor
  · simp [backup_files]
  · simp

/-! ## C9: events for untracked paths or with auto-backup off -/

/-- C9: the watchdog callback triggers no `backup_single` call when the
auto-backup flag is disabled or when the event's source path is not among
the managed paths: the list of capture invocations is empty. -/
theorem C9_no_capture (enabled : Bool) (managed : List String)
    (src : String) (h : enabled = false ∨ managed.contains src = false) :
    on_event enabled managed src = [] := by
  cases h with
  | inl h => simp [on_event, h]
  | inr h =>
      cases enabled with
      | false => simp [on_event]
      | true =>
          have he : on_event true managed src =
              managed.filter (fun tracked_path => src == tracked_path) := rfl
          rw [he, List.filter_eq_nil_iff]
          intro a ha hbeq
          have hsrc : src = a := eq_of_beq hbeq
          subst hsrc
          have hc : managed.contains src = true := List.elem_iff.mpr ha
          rw [h] at hc
          exact Bool.false_ne_true hc

/-- C9 witness: a modification event for a path absent from the registry,
with auto-backup enabled, triggers zero captures. -/
theorem C9_no_capture_witness :
    on_event true ["/cfg/a.json"] "/cfg/b.json" = [] :=
  C9_no_capture true ["/cfg/a.json"] "/cfg/b.json" (Or.inr (by decide))

/-! ## C8: registry mutation on duplicate add and unknown remove -/

/-- C8 counterexample: the claim asserts that removing an id that is not
present "fails with NotFound ... neither failure changes any state or
crashes unstructured".  On the code, a confirmed removal of an id absent
from `managed_files` reaches `del self.managed_files[selected_id]` (line
378) and raises an uncaught `KeyError` — an unstructured crash, not a
typed failure outcome. -/
theorem C8_counterexample :
    remove_file reg1 "file_9" true = (.keyError, reg1)
      ∧ structuredRemoveOutcome .keyError = false := by
  decide

/-- Helper: `add_file` on an already-managed non-empty path exits through
the duplicate-warning branch with the registry unchanged. -/
theorem add_file_when_dup (reg : Registry) (p : String)
    (hp : (p == "") = false)
    (hdup : (reg.managed_files.map Prod.snd).contains p = true) :
    add_file reg p = (.duplicatePath, reg) := by
  unfold add_file
  rw [if_neg (by simp [hp]), if_pos hdup]

/-- Helper: after any `add_file` call on a non-empty path, the path is
among the managed values. -/
theorem add_file_result_contains (reg : Registry) (p : String)
    (hp : (p == "") = false) :
    (((add_file reg p).2.managed_files.map Prod.snd).contains p) = true := by
  unfold add_file
  rw [if_neg (by simp [hp])]
  by_cases hdup : (reg.managed_files.map Prod.snd).contains p = true
  · rw [if_pos hdup]
    exact hdup
  · rw [if_neg hdup]
    refine List.elem_iff.mpr ?_
    simp

/-- Helper: `remove_file` with the empty focus exits through the
no-selection warning with the registry unchanged. -/
theorem remove_file_empty (reg : Registry) (confirm : Bool) :
    remove_file reg "" confirm = (.noSelection, reg) := by
  simp [remove_file]

/-- Helper: a confirmed `remove_file` on a non-empty id absent from the
registry reaches the uncaught `KeyError` of `del` with the registry
unchanged. -/
theorem remove_file_stale (reg : Registry) (id : String)
    (hid : (id == "") = false)
    (h : (reg.managed_files.map Prod.fst).contains id = false) :
    remove_file reg id true = (.keyError, reg) := by
  unfold remove_file
  rw [if_neg (by simp [hid]), if_neg (by simp),
    if_neg (fun hc => Bool.false_ne_true (h ▸ hc))]

/-- C8 amended: adding a path a second time fails through the duplicate
warning with the registry unchanged from the first call; a removal whose
id is absent from the registry leaves the registry unchanged in every
case, but surfaces as the no-selection warning when nothing is focused
and as an uncaught `KeyError` — not a typed NotFound — when a stale id is
confirmed. -/
theorem C8_amended_registry_mutation :
    (∀ (reg : Registry) (p : String), p ≠ "" →
        (add_file (add_file reg p).2 p).1 = .duplicatePath
          ∧ (add_file (add_file reg p).2 p).2 = (add_file reg p).2)
    ∧ (∀ (reg : Registry) (id : String) (confirm : Bool),
        (reg.managed_files.map Prod.fst).contains id = false →
        (remove_file reg id confirm).2 = reg)
    ∧ (∀ (reg : Registry) (confirm : Bool),
        remove_file reg "" confirm = (.noSelection, reg))
    ∧ (∀ (reg : Registry) (id : String), id ≠ "" →
        (reg.managed_files.map Prod.fst).contains id = false →
        remove_file reg id true = (.keyError, reg)) := by
  refine ⟨?_, ?_, ?_, ?_⟩
  · intro reg p hp
    have hp' : (p == "") = false := by simp [hp]
    have h2 := add_file_when_dup (add_file reg p).2 p hp'
      (add_file_result_contains reg p hp')
    exact ⟨by rw [h2], by rw [h2]⟩
  · intro reg id confirm hid
    by_cases h0 : (id == "") = true
    · have : id = "" := eq_of_beq h0
      subst this
      rw [remove_file_empty]
    · have h0' : (id == "") = false := by
        cases hb : (id == "") with
        | false => rfl
        | true => exact absurd hb h0
      cases confirm with
      | false =>
          unfold remove_file
          rw [if_neg (by simp [h0']), if_pos (by simp)]
      | true =>
          rw [remove_file_stale reg id h0' hid]
  · intro reg confirm
    exact remove_file_empty reg confirm
  · intro reg id hid h
    have hid' : (id == "") = false := by simp [hid]
    exact remove_file_stale reg id hid' h

/-- C8 witness: the amended statement applied to the concrete registry:
a duplicate add is rejected with no state change and a stale-id confirmed
removal raises the `KeyError` outcome with no state change. -/
theorem C8_amended_registry_mutation_witness :
    ((add_file (add_file reg1 "/cfg/b.json").2 "/cfg/b.json").1
        = .duplicatePath
      ∧ (add_file (add_file reg1 "/cfg/b.json").2 "/cfg/b.json").2
        = (add_file reg1 "/cfg/b.json").2)
    ∧ remove_file reg1 "file_7" true = (.keyError, reg1) :=
  ⟨C8_amended_registry_mutation.1 reg1 "/cfg/b.json" (by decide),
    C8_amended_registry_mutation.2.2.2 reg1 "file_7" (by decide) (by decide)⟩


/-! ## C6: snapshot naming and the listing filter -/

/-- C6 counterexample: `restore_files` filters the backup root's entries
only by the prefix `"ConfigBackup_"` (line 429), so a directory named
`ConfigBackup_zzz` — which does not follow the
`ConfigBackup_<YYYY-MM-DD_HH-MM-SS>` naming convention — is still
returned by the listing, refuting "list returns exactly the entries ...
whose names follow this naming convention". -/
theorem C6_counterexample :
    listBackups ["ConfigBackup_zzz", "notes"] = ["ConfigBackup_zzz"]
      ∧ followsSnapshotNaming "ConfigBackup_zzz" = false
      ∧ followsSnapshotNaming "ConfigBackup_2024-01-01_00-00-00" = true := by
  decide

/-- C6 amended: capture names its snapshot directory
`ConfigBackup_<YYYY-MM-DD_HH-MM-SS>` from the current time at second
resolution with create-if-absent semantics (a second capture within the
same second lands in the same directory), and the listing returns exactly
the entries whose names start with the prefix `ConfigBackup_`, ignoring
every other directory name such as `notes` — but without validating the
timestamp suffix. -/
theorem C6_amended_naming_and_listing :
    (∀ (root : String) (now : Timestamp) (onDisk files : List String)
        (fs : BackupFS), root ≠ "" → files ≠ [] →
        ∃ k, (backup_files root now onDisk files fs).1 =
          .done ("ConfigBackup_" ++ formatTimestamp now) k)
    ∧ followsSnapshotNaming ("ConfigBackup_" ++ formatTimestamp ts1) = true
    ∧ backup_files "/bk" ts1 ["/s/a.json"] ["/s/a.json"]
        ((backup_files "/bk" ts1 ["/s/a.json"] ["/s/a.json"] []).2) =
        (.done "ConfigBackup_2024-01-01_00-00-00" 1,
          [("ConfigBackup_2024-01-01_00-00-00", ["a.json"])])
    ∧ listBackups ["ConfigBackup_2024-01-01_00-00-00",
          "ConfigBackup_2024-06-01_00-00-00", "notes"] =
        ["ConfigBackup_2024-01-01_00-00-00",
          "ConfigBackup_2024-06-01_00-00-00"] := by
  refine ⟨?_, by decide, by decide, by decide⟩
  intro root now onDisk files fs hroot hfiles
  have hroot' : (root == "") = false := by simp [hroot]
  have hfiles' : files.isEmpty = false := by
    cases files with
    | nil => exact absurd rfl hfiles
    | cons f fsl => rfl
  refine ⟨(files.foldl (backupStep onDisk
      ("ConfigBackup_" ++ formatTimestamp now))
      (0, ensureSnapshotDir fs ("ConfigBackup_" ++ formatTimestamp now))).1, ?_⟩
  simp [backup_files, hroot', hfiles']

/-- C6 witness: the naming characterization applied to a concrete capture. -/
theorem C6_amended_naming_and_listing_witness :
    ∃ k, (backup_files "/bk" ts1 [] ["/s/a.json"] []).1 =
      .done ("ConfigBackup_" ++ formatTimestamp ts1) k :=
  C6_amended_naming_and_listing.1 "/bk" ts1 [] ["/s/a.json"] []
    (by decide) (by decide)


/-! ## C7: restore semantics -/

/-- Helper: the overwriting in-place update of `setContent` does not change
the content read at any other path. -/
theorem getContent_map_overwrite (l : Disk) (dest c p : String)
    (hne : dest ≠ p) :
    getContent (l.map (fun e => if e.1 == dest then (e.1, c) else e)) p
      = getContent l p := by
  induction l with
  | nil => rfl
  | cons e es ih =>
      have hfst : ((if e.1 == dest then (e.1, c) else e) : String × String).1
          = e.1 := by
        split <;> rfl
      unfold getContent at ih ⊢
      simp only [List.map_cons]
      by_cases h1 : (e.1 == p) = true
      · have hep : e.1 = p := eq_of_beq h1
        have hed : (e.1 == dest) = false := by
          refine beq_eq_false_iff_ne.mpr ?_
          rw [hep]
          exact fun hx => hne hx.symm
        have hkeep : (if e.1 == dest then (e.1, c) else e) = e := by
          simp [hed]
        rw [hkeep,
          List.find?_cons_of_pos
            (es.map (fun e => if e.1 == dest then (e.1, c) else e)) h1,
          List.find?_cons_of_pos es h1]
      · have h1' : ¬ ((if e.1 == dest then (e.1, c) else e).1 == p) = true := by
          rw [hfst]
          exact h1
        rw [List.find?_cons_of_neg
            (es.map (fun e => if e.1 == dest then (e.1, c) else e)) h1',
          List.find?_cons_of_neg es h1]
        exact ih

/-- Helper: a `setContent` at one path does not change the content read at
any other path. -/
theorem getContent_setContent_ne (disk : Disk) (dest c p : String)
    (hne : dest ≠ p) :
    getContent (setContent disk dest c) p = getContent disk p := by
  unfold setContent
  by_cases hany : disk.any (fun e => e.1 == dest) = true
  · rw [if_pos hany]
    exact getContent_map_overwrite disk dest c p hne
  · rw [if_neg hany]
    unfold getContent
    rw [List.find?_append]
    have hlast : ([(dest, c)].find? (fun e => e.1 == p)) = none := by
      have : ((dest, c).1 == p) = false := beq_eq_false_iff_ne.mpr hne
      simp [List.find?, this]
    rw [hlast, Option.or_none]

/-- Helper: the restored count of the loop, from any starting accumulator:
one per snapshot file that has a managed destination and whose copy does
not fail. -/
theorem restoreStep_foldl_count (managed : List (String × String))
    (copyFails : String → Bool) :
    ∀ (snap : List (String × String)) (n : Nat) (disk : Disk),
      (snap.foldl (restoreStep managed copyFails) (n, disk)).1 =
        n + (snap.filter (fun f =>
          (lookupDest managed f.1).isSome && !copyFails f.1)).length := by
  intro snap
  induction snap with
  | nil => intro n disk; simp
  | cons f rest ih =>
      intro n disk
      simp only [List.foldl_cons, List.filter_cons]
      cases hdest : lookupDest managed f.1 with
      | none =>
          have hstep : restoreStep managed copyFails (n, disk) f = (n, disk) := by
            unfold restoreStep
            rw [hdest]
          rw [hstep, ih]
          simp [hdest]
      | some dest =>
          by_cases hfail : copyFails f.1 = true
          · have hstep : restoreStep managed copyFails (n, disk) f
                = (n, disk) := by
              unfold restoreStep
              rw [hdest]
              exact if_pos hfail
            rw [hstep, ih]
            simp [hdest, hfail]
          · have hfail' : copyFails f.1 = false := by
              cases hb : copyFails f.1 with
              | true => exact absurd hb hfail
              | false => rfl
            have hstep : restoreStep managed copyFails (n, disk) f
                = (n + 1, setContent disk dest f.2) := by
              unfold restoreStep
              rw [hdest]
              exact if_neg hfail
            rw [hstep, ih]
            simp [hdest, hfail']
            omega

/-- Helper: the restore loop never changes the content at a path that is
the destination of no snapshot file. -/
theorem restoreStep_foldl_untouched (managed : List (String × String))
    (copyFails : String → Bool) (p : String) :
    ∀ (snap : List (String × String)) (n : Nat) (disk : Disk),
      (∀ f ∈ snap, ∀ dest, lookupDest managed f.1 = some dest → dest ≠ p) →
      getContent (snap.foldl (restoreStep managed copyFails) (n, disk)).2 p
        = getContent disk p := by
  intro snap
  induction snap with
  | nil => intro n disk _; rfl
  | cons f rest ih =>
      intro n disk h
      simp only [List.foldl_cons]
      cases hdest : lookupDest managed f.1 with
      | none =>
          have hstep : restoreStep managed copyFails (n, disk) f = (n, disk) := by
            unfold restoreStep
            rw [hdest]
          rw [hstep]
          exact ih n disk (fun g hg => h g (List.mem_cons_of_mem f hg))
      | some dest =>
          have hne : dest ≠ p := h f (List.mem_cons_self f rest) dest hdest
          by_cases hfail : copyFails f.1 = true
          · have hstep : restoreStep managed copyFails (n, disk) f
                = (n, disk) := by
              unfold restoreStep
              rw [hdest]
              exact if_pos hfail
            rw [hstep]
            exact ih n disk (fun g hg => h g (List.mem_cons_of_mem f hg))
          · have hstep : restoreStep managed copyFails (n, disk) f
                = (n + 1, setContent disk dest f.2) := by
              unfold restoreStep
              rw [hdest]
              exact if_neg hfail
            rw [hstep,
              ih (n + 1) (setContent disk dest f.2)
                (fun g hg => h g (List.mem_cons_of_mem f hg)),
              getContent_setContent_ne disk dest f.2 p hne]

/-- C7: `restore_files` overwrites, for every snapshot file whose filename
matches a managed file's basename, that destination; snapshot files with
no matching destination are ignored and a per-file copy failure does not
abort the remaining restores — the returned count is exactly the number of
snapshot files with a matching destination whose copy succeeded; a path
that is no snapshot file's destination keeps its content; and concretely a
snapshot `{a.json, b.json}` with a mapping for `a.json` only restores
exactly that one file, returns count 1, and leaves the unrelated `b.json`
content untouched, while a failing first copy still lets the second file
restore. -/
theorem C7_restore_semantics :
    (∀ (snap managed : List (String × String)) (copyFails : String → Bool)
        (disk : Disk),
        (restore_files snap managed copyFails disk).1 =
          (snap.filter (fun f =>
            (lookupDest managed f.1).isSome && !copyFails f.1)).length)
    ∧ (∀ (snap managed : List (String × String)) (copyFails : String → Bool)
        (disk : Disk) (p : String),
        (∀ f ∈ snap, ∀ dest, lookupDest managed f.1 = some dest → dest ≠ p) →
        getContent (restore_files snap managed copyFails disk).2 p
          = getContent disk p)
    ∧ restore_files [("a.json", "A"), ("b.json", "B")]
        [("file_0", "/cfg/a.json")] (fun _ => false)
        [("/cfg/a.json", "old"), ("/x/b.json", "bold")] =
        (1, [("/cfg/a.json", "A"), ("/x/b.json", "bold")])
    ∧ restore_files [("a.json", "A"), ("b.json", "B")]
        [("file_0", "/cfg/a.json"), ("file_1", "/d/b.json")]
        (fun f => f == "a.json")
        [("/cfg/a.json", "old"), ("/d/b.json", "old2")] =
        (1, [("/cfg/a.json", "old"), ("/d/b.json", "B")]) := by
  refine ⟨?_, ?_, by decide, by decide⟩
  · intro snap managed copyFails disk
    unfold restore_files
    rw [restoreStep_foldl_count]
    simp
  · intro snap managed copyFails disk p h
    unfold restore_files
    exact restoreStep_foldl_untouched managed copyFails p snap 0 disk h

/-- C7 witness: the untouched-path characterization applied to the
concrete scenario — the unrelated path `/x/b.json` keeps its content. -/
theorem C7_restore_semantics_witness :
    getContent
      (restore_files [("a.json", "A"), ("b.json", "B")]
        [("file_0", "/cfg/a.json")] (fun _ => false)
        [("/cfg/a.json", "old"), ("/x/b.json", "bold")]).2 "/x/b.json"
      = getContent [("/cfg/a.json", "old"), ("/x/b.json", "bold")] "/x/b.json" :=
  C7_restore_semantics.2.1 [("a.json", "A"), ("b.json", "B")]
    [("file_0", "/cfg/a.json")] (fun _ => false)
    [("/cfg/a.json", "old"), ("/x/b.json", "bold")] "/x/b.json"
    (by decide)


/-! ## C2: excluded subdirectories are pruned from descent -/

/-- Helper: descent through a subdirectory list is unchanged when the
excluded entries are dropped beforehand — their subtrees never contribute. -/
theorem walkList_filter_excluded (cfg : DetectionConfig) (tr : List String)
    (base path : String) :
    ∀ subs : List Dir,
      walkList cfg tr base path
          (subs.filter (fun c => !excludedName cfg c.name))
        = walkList cfg tr base path subs := by
  intro subs
  induction subs with
  | nil => rfl
  | cons c cs ih =>
      by_cases h : excludedName cfg c.name = true
      · simp [walkList, List.filter_cons, h, ih]
      · have h' : excludedName cfg c.name = false := by
          cases hb : excludedName cfg c.name with
          | true => exact absurd hb h
          | false => rfl
        simp [walkList, List.filter_cons, h', ih]

/-- C2: at every directory visited during a scan, the subdirectories whose
lower-cased name contains an exclude pattern are removed from further
descent — the scan result is identical when they are deleted from the tree
— and concretely a matching file inside a directory named `cache` (inside
a matched app directory) is never returned while its sibling is. -/
theorem C2_exclude_pruning :
    (∀ (cfg : DetectionConfig) (tr : List String) (base path nm : String)
        (subs : List Dir) (fs : List String),
        walkDir cfg tr base path (Dir.mk nm subs fs)
          = walkDir cfg tr base path
              (Dir.mk nm (subs.filter (fun c => !excludedName cfg c.name)) fs))
    ∧ auto_detect_configs appxCfg [] [("/r", cacheTree)]
        = some ["/r/AppX/user/good.json"] := by
  constructor
  · intro cfg tr base path nm subs fs
    simp only [walkDir]
    rw [walkList_filter_excluded]
  · decide

/-! ## C1: depth limits of the scan -/

/-- C1 counterexample: the claim says a matching file placed at depth 6
inside a matched app directory is not returned; on the code, file matching
at a visited directory happens before the depth-cap check (line 213-220
before line 223), and a directory at depth 5 still descends, so
`a6.json` — six components below the search root, inside the matched
`AppX/user` directory — is returned by the scan. -/
theorem C1_counterexample :
    "/r/AppX/user/s3/s4/s5/a6.json"
      ∈ (auto_detect_configs appxCfg [] [("/r", depthTree)]).getD [] := by
  decide

/-- C1 amended: a directory whose lower-cased path does not contain any
app_name/subdir pattern and whose depth from the search root exceeds 3 is
not descended past; descent stops below directories whose depth exceeds 5
even inside a matched app directory, but the files of such a directory are
still collected, so the cap on returned files is component depth 7 (a file
directly inside a depth-6 directory), not 6; consequently a matching file
placed at depth 6 from a search root with no matched ancestor is not
returned, one placed at depth 4 inside a matched app directory is
returned, one placed at depth 6 inside a matched app directory IS
returned, and one placed at depth 8 inside a matched app directory is not
returned. -/
theorem C1_amended_depth_cap :
    (∀ (cfg : DetectionConfig) (tr : List String) (base path nm : String)
        (subs : List Dir) (fs : List String),
        matchedDir cfg path = false → sepCount path - sepCount base > 3 →
        walkDir cfg tr base path (Dir.mk nm subs fs) = [])
    ∧ (∀ (cfg : DetectionConfig) (tr : List String) (base path nm : String)
        (subs : List Dir) (fs : List String),
        sepCount path - sepCount base > 5 →
        walkDir cfg tr base path (Dir.mk nm subs fs) =
          if matchedDir cfg path then matchingFilesHere cfg tr path fs
          else [])
    ∧ auto_detect_configs appxCfg [] [("/r", depthTree)] =
        some ["/r/AppX/user/a3.json", "/r/AppX/user/sub/a4.json",
              "/r/AppX/user/s3/s4/s5/a6.json",
              "/r/AppX/user/s3/s4/s5/s6/a7.json"] := by
  refine ⟨?_, ?_, by decide⟩
  · intro cfg tr base path nm subs fs hm hd
    simp [walkDir, hm, hd]
  · intro cfg tr base path nm subs fs hd
    by_cases hm : matchedDir cfg path = true
    · simp [walkDir, hm, hd]
    · have hm' : matchedDir cfg path = false := by
        cases hb : matchedDir cfg path with
        | true => exact absurd hb hm
        | false => rfl
      have hd3 : sepCount path - sepCount base > 3 := by omega
      simp [walkDir, hm', hd3]

/-- C1 witness: the two pruning characterizations applied at concrete
directories — an unmatched depth-4 directory yields nothing from its
subtree, and a matched depth-6 directory yields exactly its own matching
files. -/
theorem C1_amended_depth_cap_witness :
    walkDir appxCfg [] "/r" "/r/x1/x2/x3/x4"
        (Dir.mk "x4" [Dir.mk "x5" [] ["deep.json"]] []) = []
    ∧ walkDir appxCfg [] "/r" "/r/AppX/user/s3/s4/s5/s6"
        (Dir.mk "s6" [Dir.mk "s7" [] ["a8.json"]] ["a7.json"]) =
      (if matchedDir appxCfg "/r/AppX/user/s3/s4/s5/s6" then
        matchingFilesHere appxCfg [] "/r/AppX/user/s3/s4/s5/s6" ["a7.json"]
      else []) :=
  ⟨C1_amended_depth_cap.1 appxCfg [] "/r" "/r/x1/x2/x3/x4" "x4"
      [Dir.mk "x5" [] ["deep.json"]] [] (by decide) (by decide),
    C1_amended_depth_cap.2.1 appxCfg [] "/r" "/r/AppX/user/s3/s4/s5/s6" "s6"
      [Dir.mk "s7" [] ["a8.json"]] ["a7.json"] (by decide)⟩


/-! ## C3: what a scan collects -/

/-- Helper: membership in the per-directory collection — a collected path
is the directory's path joined with a file of the directory that matches
some file pattern and is not already tracked. -/
theorem mem_matchingFilesHere (cfg : DetectionConfig) (tr : List String)
    (path : String) (files : List String) (s : String)
    (hs : s ∈ matchingFilesHere cfg tr path files) :
    ∃ f, s = path ++ "/" ++ f
      ∧ cfg.file_patterns.any (fun pat => globMatch pat.data f.data) = true
      ∧ tr.contains (path ++ "/" ++ f) = false := by
  unfold matchingFilesHere at hs
  rcases List.mem_map.mp hs with ⟨f, hf, rfl⟩
  rcases List.mem_filter.mp hf with ⟨hfmem, hcond⟩
  rw [Bool.and_eq_true] at hcond
  rcases hcond with ⟨h1, h2⟩
  rw [Bool.not_eq_true'] at h2
  exact ⟨f, rfl, h1, h2⟩

/-- Helper: soundness of the walk — every path collected from any subtree
is a matched directory's path joined with a pattern-matching, not already
tracked filename. -/
theorem walkDir_sound (cfg : DetectionConfig) (tr : List String)
    (base : String) :
    ∀ (path : String) (d : Dir), ∀ s ∈ walkDir cfg tr base path d,
      ∃ dp f, s = dp ++ "/" ++ f
        ∧ matchedDir cfg dp = true
        ∧ cfg.file_patterns.any (fun pat => globMatch pat.data f.data) = true
        ∧ tr.contains s = false := by
  refine walkDir.induct cfg tr base
    (fun path d => ∀ s ∈ walkDir cfg tr base path d,
      ∃ dp f, s = dp ++ "/" ++ f
        ∧ matchedDir cfg dp = true
        ∧ cfg.file_patterns.any (fun pat => globMatch pat.data f.data) = true
        ∧ tr.contains s = false)
    (fun path l => ∀ s ∈ walkList cfg tr base path l,
      ∃ dp f, s = dp ++ "/" ++ f
        ∧ matchedDir cfg dp = true
        ∧ cfg.file_patterns.any (fun pat => globMatch pat.data f.data) = true
        ∧ tr.contains s = false)
    ?_ ?_ ?_ ?_ ?_ ?_
  · intro path nm subs fs hm hd s hs
    simp [walkDir, hm, hd] at hs
  · intro path nm subs fs hm hnd ih s hs
    simp only [walkDir, hm, if_true, if_neg hnd] at hs
    exact ih s hs
  · intro path nm subs fs hnm hd s hs
    have hm : matchedDir cfg path = true := by
      cases hb : matchedDir cfg path with
      | true => rfl
      | false => exact absurd (by rw [hb]; rfl) hnm
    simp only [walkDir, hm, Bool.not_true, Bool.false_eq_true, if_false,
      if_pos hd] at hs
    rcases mem_matchingFilesHere cfg tr path fs s hs with ⟨f, rfl, h1, h2⟩
    exact ⟨path, f, rfl, hm, h1, h2⟩
  · intro path nm subs fs hnm hnd ih s hs
    have hm : matchedDir cfg path = true := by
      cases hb : matchedDir cfg path with
      | true => rfl
      | false => exact absurd (by rw [hb]; rfl) hnm
    simp only [walkDir, hm, Bool.not_true, Bool.false_eq_true, if_false,
      if_neg hnd] at hs
    rcases List.mem_append.mp hs with h | h
    · rcases mem_matchingFilesHere cfg tr path fs s h with ⟨f, rfl, h1, h2⟩
      exact ⟨path, f, rfl, hm, h1, h2⟩
    · exact ih s h
  · intro path s hs
    simp [walkList] at hs
  · intro path c cs ih1 ih2 s hs
    simp only [walkList] at hs
    rcases List.mem_append.mp hs with h | h
    · by_cases hex : excludedName cfg c.name = true
      · rw [if_pos hex] at h
        exact absurd h (List.not_mem_nil s)
      · rw [if_neg hex] at h
        exact ih1 s h
    · exact ih2 s h

/-- C3: a scan only collects paths of the form `directory/filename` where
the directory's lower-cased path contains some path-joined
app_name/subdirectory entry, the filename matches at least one file
pattern, and the full path is not already tracked; and on the spec's
concrete tree — `AppX/user/settings.json` two levels under the search
root, with an already-tracked sibling, a non-matching extension and
unrelated sibling directories — the scan returns exactly that file and
nothing else. -/
theorem C3_scan_collection :
    (∀ (cfg : DetectionConfig) (tr : List String)
        (roots : List (String × Dir)) (l : List String),
        auto_detect_configs cfg tr roots = some l →
        ∀ s ∈ l, ∃ dp f, s = dp ++ "/" ++ f
          ∧ matchedDir cfg dp = true
          ∧ cfg.file_patterns.any (fun pat => globMatch pat.data f.data) = true
          ∧ tr.contains s = false)
    ∧ auto_detect_configs appxCfg ["/home/u/.config/AppX/user/tracked.json"]
        [("/home/u/.config", scanTree)]
        = some ["/home/u/.config/AppX/user/settings.json"] := by
  constructor
  · intro cfg tr roots l hl s hs
    unfold auto_detect_configs at hl
    by_cases happ : (cfg.app_name == "") = true
    · rw [if_pos happ] at hl
      exact Option.noConfusion hl
    · rw [if_neg happ] at hl
      injection hl with hl
      subst hl
      rcases List.mem_flatMap.mp hs with ⟨r, hrmem, hr⟩
      exact walkDir_sound cfg tr r.1 r.1 r.2 s hr
  · decide

/-- C3 witness: the soundness characterization applied to the concrete
scan — the single returned path decomposes into a matched directory and a
pattern-matching untracked filename. -/
theorem C3_scan_collection_witness :
    ∃ dp f, "/home/u/.config/AppX/user/settings.json" = dp ++ "/" ++ f
      ∧ matchedDir appxCfg dp = true
      ∧ appxCfg.file_patterns.any (fun pat => globMatch pat.data f.data) = true
      ∧ (["/home/u/.config/AppX/user/tracked.json"] : List String).contains
          "/home/u/.config/AppX/user/settings.json" = false :=
  C3_scan_collection.1 appxCfg ["/home/u/.config/AppX/user/tracked.json"]
    [("/home/u/.config", scanTree)]
    ["/home/u/.config/AppX/user/settings.json"] (by decide)
    "/home/u/.config/AppX/user/settings.json" (by decide)


end Fiwami
